import Mathlib

/-!
# Verification of the lib-vmm provider/game registry core

Shallow embedding of the identifier normalizer (`src/registry/id.rs`),
the registry builder and frozen context (`src/runtime/context.rs`), and
the api-key capability delegate (`src/capabilities/api_key_capability.rs`).

Strings are modelled as Lean `String`s (lists of unicode scalar values).
Rust's `str::trim` is modelled with the exact Unicode `White_Space` set
that `char::is_whitespace` tests.  Rust's `str::to_lowercase` is modelled
character-wise: `A`..`Z` map to `a`..`z`, U+212A KELVIN SIGN maps to `k`,
and every other character is left unchanged.  Per the Unicode case
tables these are the only lowercase mappings whose target lies in the
validator's accepted set `[a-z0-9._-:]` (the one multi-character mapping,
U+0130 → `i` followed by U+0307, contains the rejected U+0307); every
remaining mapping sends a character outside the accepted set to another
character outside it, so leaving those characters unchanged alters at
most the character echoed inside an `InvalidId` message, never whether
`normalize_id` succeeds nor the string it returns.  Rust's byte-oriented
`String::len` is modelled exactly, by summing UTF-8 sizes of characters.
-/

namespace LibVmm

/-- The characters `str::trim` strips: the full Unicode `White_Space`
set tested by `char::is_whitespace` — U+0009..U+000D, U+0020 SPACE,
U+0085 NEL, U+00A0 NBSP, U+1680 OGHAM SPACE MARK, U+2000..U+200A,
U+2028 LINE SEPARATOR, U+2029 PARAGRAPH SEPARATOR, U+202F NARROW
NO-BREAK SPACE, U+205F MEDIUM MATHEMATICAL SPACE, U+3000 IDEOGRAPHIC
SPACE. -/
def isWs (c : Char) : Bool :=
  decide ((9 ≤ c.toNat ∧ c.toNat ≤ 13) ∨ c.toNat = 32 ∨ c.toNat = 133 ∨ c.toNat = 160 ∨
    c.toNat = 5760 ∨ (8192 ≤ c.toNat ∧ c.toNat ≤ 8202) ∨ c.toNat = 8232 ∨ c.toNat = 8233 ∨
    c.toNat = 8239 ∨ c.toNat = 8287 ∨ c.toNat = 12288)

/-- Character-wise model of `str::to_lowercase`: maps `A`..`Z` to
`a`..`z` and U+212A KELVIN SIGN (code point 8490) to `k`, leaving every
other character unchanged.  `A`..`Z` and U+212A are the only characters
whose Unicode lowercase lies in the validator's accepted set
`[a-z0-9._-:]`, so on all remaining characters — which `normalize_id`
rejects whether or not they are lowercased — identity is observationally
equivalent to Rust's mapping up to the character echoed in the
`InvalidId` message. -/
def lowerChar (c : Char) : Char :=
  if 65 ≤ c.toNat ∧ c.toNat ≤ 90 then Char.ofNat (c.toNat + 32)
  else if c.toNat = 8490 then 'k'
  else c

/-- `str::trim`: drop leading and trailing whitespace. -/
def rustTrim (l : List Char) : List Char :=
  ((l.dropWhile isWs).reverse.dropWhile isWs).reverse

/-- Number of bytes of the UTF-8 encoding of one character;
models Rust's byte-oriented string length contribution of a `char`. -/
def charUtf8 (c : Char) : Nat :=
  if c.toNat < 128 then 1 else if c.toNat < 2048 then 2 else if c.toNat < 65536 then 3 else 4

/-- Rust `String::len`: the UTF-8 byte length of the string. -/
def utf8Len (l : List Char) : Nat := (l.map charUtf8).sum

/-- The characters the first match arm of the validation loop in
`normalize_id` accepts: `a`..`z`, `0`..`9`, `.`, `_`, `-`. -/
def allowedChar (c : Char) : Bool :=
  decide ((97 ≤ c.toNat ∧ c.toNat ≤ 122) ∨ (48 ≤ c.toNat ∧ c.toNat ≤ 57) ∨
    c.toNat = 46 ∨ c.toNat = 95 ∨ c.toNat = 45)

/-- `RegistryError` from `src/registry/error.rs`. -/
inductive RegistryError where
  | InvalidId (msg : String)
  | ProviderAlreadyExists (id : String)
  | GameAlreadyExists (id : String)
  | ReservedCoreId (id : String)
  | NotFound (id : String)
deriving DecidableEq, Repr

instance {ε α : Type} [DecidableEq ε] [DecidableEq α] : DecidableEq (Except ε α) := fun x y =>
  match x, y with
  | .ok a, .ok b =>
    if h : a = b then isTrue (by rw [h]) else isFalse (by simp [h])
  | .error a, .error b =>
    if h : a = b then isTrue (by rw [h]) else isFalse (by simp [h])
  | .ok _, .error _ => isFalse (by simp)
  | .error _, .ok _ => isFalse (by simp)

/-- The character-validation loop of `normalize_id`: walks the
trimmed-and-lowercased string with the character index `i`, the
byte length `byteLen` of the whole string, and the `seen` flag for a
previously accepted colon.  Returns `none` when every character is
accepted, or the `InvalidId` error produced at the first offender. -/
def checkChars (raw : String) (byteLen : Nat) : List Char → Nat → Bool → Option RegistryError
  | [], _, _ => none
  | c :: rest, i, seen =>
    if allowedChar c then
      checkChars raw byteLen rest (i + 1) seen
    else if c = ':' ∧ seen = false ∧ 0 < i ∧ i < byteLen - 1 then
      checkChars raw byteLen rest (i + 1) true
    else
      some (RegistryError.InvalidId
        ("ID: '" ++ raw ++ "' contains invalid character '" ++ String.singleton c ++
          "' at position " ++ toString i))

/-- `normalize_id` from `src/registry/id.rs`: trim, lowercase, reject the
empty string and byte length above 200, then run the character loop. -/
def normalizeId (raw : String) : Except RegistryError String :=
  let l := (rustTrim raw.data).map lowerChar
  let bl := utf8Len l
  if bl = 0 ∨ 200 < bl then
    .error (.InvalidId ("ID '" ++ raw ++ "' is invalid."))
  else
    match checkChars raw bl l 0 false with
    | some e => .error e
    | none => .ok (String.mk l)

/-- `is_core_id` from `src/registry/id.rs`: `id.starts_with("core:")`. -/
def isCoreId (s : String) : Bool := decide (s.data.take 5 = "core:".data)

/-! ## Registry data model (`src/registry/model.rs`, `src/traits/…`) -/

/-- `ProviderSource` from `src/registry/model.rs`. -/
inductive ProviderSource where
  | Core
  | Plugin (name : String)
deriving DecidableEq, Repr

/-- `ModExtendedMetadata` from `src/traits/discovery.rs`. -/
structure ModExtendedMetadata where
  header_image : String
  carousel_images : List String
  version : String
  installed : Bool
  description : String
deriving DecidableEq, Repr

/-- The part of the `ModProvider` trait object the frozen context calls:
`get_extended_mod` (modelled as a pure function, the `async` effect dropped). -/
structure ModProviderImpl where
  get_extended_mod : String → ModExtendedMetadata

/-- The part of the `GameProvider` trait object the registry reads:
the self-reported `id()` and the declared `mod_provider_id()`. -/
structure GameProviderImpl where
  id : String
  mod_provider_id : String
deriving DecidableEq, Repr

/-- `ProviderEntry` from `src/registry/model.rs`. -/
structure ProviderEntry where
  id : String
  source : ProviderSource
  provider : ModProviderImpl

/-- `GameEntry` from `src/registry/model.rs`. -/
structure GameEntry where
  id : String
  source : ProviderSource
  game : GameProviderImpl
  required_provider_id : String

/-- A `HashMap<String, α>` modelled as an association list.  The registry
only ever inserts a key after checking it is absent, so prepending is a
faithful model of `HashMap::insert` on every reachable state. -/
abbrev Map (α : Type) : Type := List (String × α)

/-- `HashMap::contains_key`. -/
def mapContains {α : Type} (m : Map α) (k : String) : Bool :=
  m.any fun p => p.1 == k

/-- `HashMap::get`. -/
def mapFind {α : Type} (m : Map α) (k : String) : Option α :=
  (m.find? fun p => p.1 == k).map (·.2)

/-- `HashMap::insert` of a key known to be absent. -/
def mapInsert {α : Type} (m : Map α) (k : String) (v : α) : Map α :=
  (k, v) :: m

/-! ## Registry builder and frozen context (`src/runtime/context.rs`) -/

/-- `ContextBuilder`: the mutable accumulator of registrations. -/
structure ContextBuilder where
  mod_providers : Map ProviderEntry
  games : Map GameEntry

/-- `ContextBuilder::new`. -/
def ContextBuilder.new : ContextBuilder := ⟨[], []⟩

/-- `ContextBuilder::register_mod_provider`: normalize, reject `core:` ids
from non-core sources, reject duplicates, otherwise insert a `ProviderEntry`.
The Rust method mutates `self` and returns `Result<()>`; here the updated
builder is returned in the success case and the builder is untouched on error. -/
def registerModProvider (b : ContextBuilder) (id : String) (provider : ModProviderImpl)
    (source : ProviderSource) : Except RegistryError ContextBuilder :=
  match normalizeId id with
  | .error e => .error e
  | .ok nid =>
    if isCoreId nid = true ∧ ¬ source = ProviderSource.Core then
      .error (.ReservedCoreId nid)
    else if mapContains b.mod_providers nid = true then
      .error (.ProviderAlreadyExists nid)
    else
      .ok { b with mod_providers := mapInsert b.mod_providers nid ⟨nid, source, provider⟩ }

/-- `ContextBuilder::register_game_provider`: normalize the game's `id()`,
reject duplicates, then normalize `mod_provider_id()` and require it to be a
registered mod provider, otherwise insert a `GameEntry` recording it. -/
def registerGameProvider (b : ContextBuilder) (provider : GameProviderImpl)
    (source : ProviderSource) : Except RegistryError ContextBuilder :=
  match normalizeId provider.id with
  | .error e => .error e
  | .ok nid =>
    if mapContains b.games nid = true then
      .error (.GameAlreadyExists nid)
    else
      match normalizeId provider.mod_provider_id with
      | .error e => .error e
      | .ok dep =>
        if mapContains b.mod_providers dep = true then
          .ok { b with games := mapInsert b.games nid ⟨nid, source, provider, dep⟩ }
        else
          .error (.NotFound dep)

/-- `Context`: the frozen snapshot.  The `Mutex<Option<String>>` active-game
slot is modelled as an `Option String` field threaded explicitly. -/
structure Context where
  mod_providers : Map ProviderEntry
  game_providers : Map GameEntry
  active_game : Option String

/-- `ContextBuilder::freeze`: move both maps, with the slot starting at `None`. -/
def ContextBuilder.freeze (b : ContextBuilder) : Context :=
  ⟨b.mod_providers, b.games, none⟩

/-- `Context::get_mod_provider`. -/
def getModProvider (ctx : Context) (id : String) : Except RegistryError ModProviderImpl :=
  match normalizeId id with
  | .error e => .error e
  | .ok nid =>
    match mapFind ctx.mod_providers nid with
    | some e => .ok e.provider
    | none => .error (.NotFound nid)

/-- `Context::list_mod_providers`. -/
def listModProviders (ctx : Context) : List (String × ProviderSource) :=
  ctx.mod_providers.map fun p => (p.2.id, p.2.source)

/-- `Context::list_games`. -/
def listGames (ctx : Context) : List (String × ProviderSource × String) :=
  ctx.game_providers.map fun p => (p.2.id, p.2.source, p.2.required_provider_id)

/-- `Context::activate_game`: normalize, verify the game exists, then
overwrite the slot.  Returns the call's result together with the context
after the call (unchanged on every error path, as in the Rust code, where
errors return before the slot's lock is taken). -/
def activateGame (ctx : Context) (id : String) : Except RegistryError Unit × Context :=
  match normalizeId id with
  | .error e => (.error e, ctx)
  | .ok nid =>
    if mapContains ctx.game_providers nid = true then
      (.ok (), { ctx with active_game := some nid })
    else
      (.error (.NotFound nid), ctx)

/-- `Context::active_game`. -/
def activeGame (ctx : Context) : Option String := ctx.active_game

/-- `Context::active_game_required_provider`. -/
def activeGameRequiredProvider (ctx : Context) : Option String :=
  (activeGame ctx).bind fun id =>
    (mapFind ctx.game_providers id).map (·.required_provider_id)

/-- `Context::get_extended_info`: normalize the mod id, require an active
game (else `NotFound("No active game")`), defensively re-look-up the
recorded dependency provider, then delegate to it. -/
def getExtendedInfo (ctx : Context) (id : String) : Except RegistryError ModExtendedMetadata :=
  match normalizeId id with
  | .error e => .error e
  | .ok nid =>
    match activeGameRequiredProvider ctx with
    | none => .error (.NotFound "No active game")
    | some p =>
      match mapFind ctx.mod_providers p with
      | none => .error (.NotFound p)
      | some entry => .ok (entry.provider.get_extended_mod nid)

/-! ## Operation sequences over the builder and the context -/

/-- One registration call against the builder. -/
inductive BuilderOp where
  | registerProvider (id : String) (provider : ModProviderImpl) (source : ProviderSource)
  | registerGame (provider : GameProviderImpl) (source : ProviderSource)

/-- Apply one registration call; a failed call leaves the builder as it was
(the Rust methods return early without mutating on every error path). -/
def applyBuilderOp (b : ContextBuilder) : BuilderOp → ContextBuilder
  | .registerProvider id p src =>
    match registerModProvider b id p src with
    | .ok b' => b'
    | .error _ => b
  | .registerGame g src =>
    match registerGameProvider b g src with
    | .ok b' => b'
    | .error _ => b

/-- Run a sequence of registration calls on a fresh builder. -/
def runBuilder (ops : List BuilderOp) : ContextBuilder :=
  ops.foldl applyBuilderOp ContextBuilder.new

/-- Number of `register_mod_provider` calls in `ops` that return `Ok` when
the sequence is run from builder `b`. -/
def providerSuccessCount : ContextBuilder → List BuilderOp → Nat
  | _, [] => 0
  | b, op :: rest =>
    let n := providerSuccessCount (applyBuilderOp b op) rest
    match op with
    | .registerProvider id p src =>
      match registerModProvider b id p src with
      | .ok _ => n + 1
      | .error _ => n
    | .registerGame _ _ => n

/-- One state-changing call against a frozen context (`activate_game` is the
only operation that mutates a `Context`). -/
inductive CtxOp where
  | activate (id : String)

/-- Apply one context operation, keeping the post-call state. -/
def applyCtxOp (ctx : Context) : CtxOp → Context
  | .activate id => (activateGame ctx id).2

/-- Run a sequence of context operations. -/
def runCtx (ctx : Context) (ops : List CtxOp) : Context :=
  ops.foldl applyCtxOp ctx

/-! ## Api-key capability delegate (`src/capabilities/api_key_capability.rs`) -/

/-- `CapabilityError` from `src/capabilities/builder.rs`. -/
inductive CapabilityError where
  | ProviderDropped
deriving DecidableEq, Repr

/-- `KeyAction` from `src/capabilities/api_key_capability.rs`. -/
inductive KeyAction where
  | Store
  | DontStore
deriving DecidableEq, Repr

/-- `ApiKeyValidationError` from `src/capabilities/api_key_capability.rs`. -/
inductive ApiKeyValidationError where
  | Empty
  | TooShort (min_len : Nat)
  | Invalid
  | ProviderError
  | Other (msg : String)
deriving DecidableEq, Repr

/-- `ApiSubmitResponse` from `src/capabilities/api_key_capability.rs`. -/
structure ApiSubmitResponse where
  id : String
  value : String
deriving DecidableEq, Repr

/-- `FormSchema` from `src/capabilities/form.rs` (fields of the form are
elided; only the schema value flows through the delegate unchanged). -/
structure FormSchema where
  title : String
  description : Option String
deriving DecidableEq, Repr

/-- The `RequiresApiKey` behavior of an owner of type `T`
(`on_rejected` is side-effect-only; its effect is modelled as a `Unit`). -/
structure RequiresApiKeyImpl (T : Type) where
  on_provided : T → List ApiSubmitResponse → Except ApiKeyValidationError KeyAction
  on_rejected : T → Unit
  needs_prompt : T → Option String → Bool
  render : T → Except CapabilityError FormSchema

/-- `ApiKeyCapability<T>`: a `Weak<T>`, modelled as `some owner` while the
owner is alive and `none` once it has been destroyed. -/
def ApiKeyCapability (T : Type) : Type := Option T

/-- `ApiKeyCapability::inner`: upgrade the weak reference or fail with
`ProviderDropped`. -/
def capInner {T : Type} (w : ApiKeyCapability T) : Except CapabilityError T :=
  match w with
  | some p => .ok p
  | none => .error .ProviderDropped

/-- Delegated `on_provided`: forward, or `Err(ProviderError)` when dropped. -/
def capOnProvided {T : Type} (impl : RequiresApiKeyImpl T) (w : ApiKeyCapability T)
    (values : List ApiSubmitResponse) : Except ApiKeyValidationError KeyAction :=
  match capInner w with
  | .ok p => impl.on_provided p values
  | .error _ => .error .ProviderError

/-- Delegated `on_rejected`: forward, or do nothing when dropped. -/
def capOnRejected {T : Type} (impl : RequiresApiKeyImpl T) (w : ApiKeyCapability T) : Unit :=
  match capInner w with
  | .ok p => impl.on_rejected p
  | .error _ => ()

/-- Delegated `needs_prompt`: forward, or `false` when dropped. -/
def capNeedsPrompt {T : Type} (impl : RequiresApiKeyImpl T) (w : ApiKeyCapability T)
    (existing_key : Option String) : Bool :=
  match capInner w with
  | .ok p => impl.needs_prompt p existing_key
  | .error _ => false

/-- Delegated `render`: forward, or propagate the `ProviderDropped` error. -/
def capRender {T : Type} (impl : RequiresApiKeyImpl T) (w : ApiKeyCapability T) :
    Except CapabilityError FormSchema :=
  match capInner w with
  | .ok p => impl.render p
  | .error e => .error e

/-- The error of a fallible call, when it failed. -/
def errOf {ε α : Type} : Except ε α → Option ε
  | .error e => some e
  | .ok _ => none

/-! ## Concrete fixtures used by witnesses and counterexamples -/

/-- An arbitrary extended-metadata record. -/
def dummyMeta : ModExtendedMetadata := ⟨"", [], "1.0", true, ""⟩

/-- A mod provider whose extended lookup always answers `dummyMeta`. -/
def demoProvider : ModProviderImpl := ⟨fun _ => dummyMeta⟩

/-- A builder holding one mod provider `mod:p` and one game `game-a`
depending on it, built through the registration operations. -/
def demoBuilder : ContextBuilder :=
  runBuilder [
    .registerProvider "mod:p" demoProvider (.Plugin "plug"),
    .registerGame ⟨"game-a", "mod:p"⟩ (.Plugin "plug")]

/-- The frozen context of `demoBuilder`; its active-game slot is empty. -/
def demoCtx : Context := demoBuilder.freeze

/-! ## Spec-side predicate for the normalizer (claim wording) -/

/-- The trimmed-and-lowercased form of a raw identifier. -/
def lowerTrim (raw : String) : List Char := (rustTrim raw.data).map lowerChar

/-- Number of colons in a character list. -/
def countColon : List Char → Nat
  | [] => 0
  | c :: l => (if c = ':' then 1 else 0) + countColon l

/-- Validity of a trimmed-and-lowercased identifier as the specification
words it: non-empty, at most 200 characters, every character in
`[a-z0-9._-]` except at most one `:` that is neither the first nor the
last character. -/
def specValid (l : List Char) : Prop :=
  l ≠ [] ∧ l.length ≤ 200 ∧
  (∀ c ∈ l, allowedChar c = true ∨ c = ':') ∧
  countColon l ≤ 1 ∧ l.head? ≠ some ':' ∧ l.getLast? ≠ some ':'

instance (l : List Char) : Decidable (specValid l) := by
  unfold specValid; infer_instance

/-! ## Lemmas about the normalizer -/

/-- Every character the validator can accept is fixed by lowercasing,
is not whitespace, occupies one UTF-8 byte, and is not an uppercase
ASCII letter. -/
theorem okChar_props {c : Char} (h : allowedChar c = true ∨ c = ':') :
    lowerChar c = c ∧ isWs c = false ∧ charUtf8 c = 1 ∧
      ¬(65 ≤ c.toNat ∧ c.toNat ≤ 90) := by
  have hn : (97 ≤ c.toNat ∧ c.toNat ≤ 122) ∨ (48 ≤ c.toNat ∧ c.toNat ≤ 57) ∨
      c.toNat = 46 ∨ c.toNat = 95 ∨ c.toNat = 45 ∨ c.toNat = 58 := by
    rcases h with h | h
    · simp only [allowedChar, decide_eq_true_eq] at h
      tauto
    · subst h; right; right; right; right; right; rfl
  refine ⟨?_, ?_, ?_, by omega⟩
  · have hne : ¬(65 ≤ c.toNat ∧ c.toNat ≤ 90) := by omega
    have hnk : ¬(c.toNat = 8490) := by omega
    simp [lowerChar, hne, hnk]
  · simp only [isWs, decide_eq_false_iff_not]
    omega
  · have hlt : c.toNat < 128 := by omega
    simp [charUtf8, hlt]

theorem allowedChar_colon_false : allowedChar ':' = false := by decide

theorem charUtf8_pos (c : Char) : 1 ≤ charUtf8 c := by
  unfold charUtf8
  split
  · omega
  · split
    · omega
    · split <;> omega

theorem utf8Len_eq_zero_iff (l : List Char) : utf8Len l = 0 ↔ l = [] := by
  cases l with
  | nil => simp [utf8Len]
  | cons c l =>
    simp only [utf8Len, List.map_cons, List.sum_cons]
    have := charUtf8_pos c
    constructor
    · intro h; omega
    · intro h; exact absurd h (List.cons_ne_nil c l)

theorem utf8Len_eq_length {l : List Char} (h : ∀ c ∈ l, charUtf8 c = 1) :
    utf8Len l = l.length := by
  induction l with
  | nil => rfl
  | cons c l ih =>
    simp only [utf8Len, List.map_cons, List.sum_cons, List.length_cons] at *
    rw [h c (List.mem_cons_self c l), ih fun x hx => h x (List.mem_cons_of_mem c hx)]
    omega

theorem head?_eq_get?_zero (l : List Char) : l.head? = l.get? 0 := by
  cases l <;> rfl

theorem get?_some_lt : ∀ (l : List Char) (j : Nat) (a : Char), l.get? j = some a → j < l.length
  | [], j, a, h => by simp [List.get?] at h
  | _ :: _, 0, _, _ => Nat.succ_pos _
  | _ :: l, j + 1, a, h => Nat.succ_lt_succ (get?_some_lt l j a h)

theorem getLast?_eq_get? : ∀ (l : List Char), l.getLast? = l.get? (l.length - 1)
  | [] => rfl
  | [_] => rfl
  | a :: b :: l => by
    have ih := getLast?_eq_get? (b :: l)
    simpa [List.getLast?_cons_cons] using ih

/-- Characterization of a successful run of the validation loop: every
character is allowed or a colon, colons are exhausted by the `seen`
budget, and every colon sits strictly inside `(0, byteLen - 1)` once
shifted by the starting index. -/
theorem checkChars_none_iff (raw : String) (byteLen : Nat) :
    ∀ (l : List Char) (i : Nat) (seen : Bool),
      checkChars raw byteLen l i seen = none ↔
        ((∀ c ∈ l, allowedChar c = true ∨ c = ':') ∧
         countColon l + (if seen = true then 1 else 0) ≤ 1 ∧
         (∀ j a, l.get? j = some a → a = ':' → 0 < i + j ∧ i + j < byteLen - 1))
  | [], i, seen => by
    simp only [checkChars, countColon]
    constructor
    · intro _
      refine ⟨by simp, by cases seen <;> simp, ?_⟩
      intro j a h
      simp [List.get?] at h
    · intro _; trivial
  | c :: l, i, seen => by
    by_cases hc : allowedChar c = true
    · have hcol : c ≠ ':' := by
        intro h; rw [h, allowedChar_colon_false] at hc; exact Bool.false_ne_true hc
      rw [show checkChars raw byteLen (c :: l) i seen
            = checkChars raw byteLen l (i + 1) seen by
          simp [checkChars, hc]]
      rw [checkChars_none_iff raw byteLen l (i + 1) seen]
      constructor
      · rintro ⟨h1, h2, h3⟩
        refine ⟨?_, ?_, ?_⟩
        · intro x hx
          rcases List.mem_cons.mp hx with rfl | hx
          · exact Or.inl hc
          · exact h1 x hx
        · simpa [countColon, hcol] using h2
        · intro j a hj ha
          cases j with
          | zero =>
            rw [show (c :: l).get? 0 = some c from rfl] at hj
            cases hj
            exact absurd ha hcol
          | succ j =>
            have := h3 j a hj ha
            omega
      · rintro ⟨h1, h2, h3⟩
        refine ⟨?_, ?_, ?_⟩
        · intro x hx; exact h1 x (List.mem_cons_of_mem c hx)
        · simpa [countColon, hcol] using h2
        · intro j a hj ha
          have := h3 (j + 1) a hj ha
          omega
    · by_cases hg : c = ':' ∧ seen = false ∧ 0 < i ∧ i < byteLen - 1
      · obtain ⟨rfl, hseen, hi0, hib⟩ := hg
        rw [show checkChars raw byteLen (':' :: l) i seen
              = checkChars raw byteLen l (i + 1) true by
            simp [checkChars, hc, hseen, hi0, hib]]
        rw [checkChars_none_iff raw byteLen l (i + 1) true]
        subst hseen
        constructor
        · rintro ⟨h1, h2, h3⟩
          refine ⟨?_, ?_, ?_⟩
          · intro x hx
            rcases List.mem_cons.mp hx with rfl | hx
            · exact Or.inr rfl
            · exact h1 x hx
          · simp only [if_pos rfl] at h2
            simpa [countColon] using h2
          · intro j a hj ha
            cases j with
            | zero => omega
            | succ j =>
              have := h3 j a hj ha
              omega
        · rintro ⟨h1, h2, h3⟩
          refine ⟨?_, ?_, ?_⟩
          · intro x hx; exact h1 x (List.mem_cons_of_mem _ hx)
          · simp only [countColon, if_pos rfl] at h2
            simpa using h2
          · intro j a hj ha
            have := h3 (j + 1) a hj ha
            omega
      · rw [show checkChars raw byteLen (c :: l) i seen
              = some (RegistryError.InvalidId
                  ("ID: '" ++ raw ++ "' contains invalid character '" ++ String.singleton c ++
                    "' at position " ++ toString i)) by
            simp [checkChars, hc, hg]]
        constructor
        · intro h; cases h
        · rintro ⟨h1, h2, h3⟩
          exfalso
          by_cases hccol : c = ':'
          · subst hccol
            have h0 := h3 0 ':' rfl rfl
            rcases Bool.eq_false_or_eq_true seen with hs | hs
            · rw [hs, if_pos rfl] at h2
              have hcc : countColon (':' :: l) = 1 + countColon l := by simp [countColon]
              omega
            · exact hg ⟨rfl, hs, by omega, by omega⟩
          · rcases h1 c (List.mem_cons_self c l) with h | h
            · exact hc h
            · exact hccol h

/-- The validation loop only ever produces `InvalidId` errors. -/
theorem checkChars_some_invalid (raw : String) (byteLen : Nat) :
    ∀ (l : List Char) (i : Nat) (seen : Bool) (e : RegistryError),
      checkChars raw byteLen l i seen = some e → ∃ msg, e = .InvalidId msg
  | [], _, _, _, h => by cases h
  | c :: l, i, seen, e, h => by
    rw [checkChars] at h
    split at h
    · exact checkChars_some_invalid raw byteLen l (i + 1) seen e h
    · split at h
      · exact checkChars_some_invalid raw byteLen l (i + 1) true e h
      · cases h
        exact ⟨_, rfl⟩

/-- `normalizeId` unfolded onto `lowerTrim`. -/
theorem normalizeId_eq (raw : String) :
    normalizeId raw =
      (if utf8Len (lowerTrim raw) = 0 ∨ 200 < utf8Len (lowerTrim raw) then
        .error (.InvalidId ("ID '" ++ raw ++ "' is invalid."))
      else
        match checkChars raw (utf8Len (lowerTrim raw)) (lowerTrim raw) 0 false with
        | some e => .error e
        | none => .ok (String.mk (lowerTrim raw))) := rfl

/-- A successful validation loop run from index `0` with byte length
`utf8Len l` forces the spec-side validity predicate. -/
theorem specValid_of_loop {raw : String} {l : List Char}
    (hbl : ¬(utf8Len l = 0 ∨ 200 < utf8Len l))
    (hcc : checkChars raw (utf8Len l) l 0 false = none) : specValid l := by
  rw [checkChars_none_iff] at hcc
  obtain ⟨h1, h2, h3⟩ := hcc
  have hsize : ∀ c ∈ l, charUtf8 c = 1 := fun c hc => (okChar_props (h1 c hc)).2.2.1
  have hlen : utf8Len l = l.length := utf8Len_eq_length hsize
  have hne : l ≠ [] := by
    intro h
    exact hbl (Or.inl ((utf8Len_eq_zero_iff l).mpr h))
  refine ⟨hne, by omega, h1, by simpa using h2, ?_, ?_⟩
  · intro hhd
    have := h3 0 ':' (by rw [← head?_eq_get?_zero]; exact hhd) rfl
    omega
  · intro hlast
    have hl : 0 < l.length := List.length_pos.mpr hne
    have hg : l.get? (l.length - 1) = some ':' := by
      rw [← getLast?_eq_get?]; exact hlast
    have := h3 (l.length - 1) ':' hg rfl
    omega

/-- Conversely, spec-side validity makes both normalizer checks pass. -/
theorem loop_of_specValid (raw : String) {l : List Char} (h : specValid l) :
    ¬(utf8Len l = 0 ∨ 200 < utf8Len l) ∧
      checkChars raw (utf8Len l) l 0 false = none := by
  obtain ⟨hne, hlen, h1, hcount, hhead, hlast⟩ := h
  have hsize : ∀ c ∈ l, charUtf8 c = 1 := fun c hc => (okChar_props (h1 c hc)).2.2.1
  have hbl : utf8Len l = l.length := utf8Len_eq_length hsize
  have hl : 0 < l.length := List.length_pos.mpr hne
  constructor
  · intro hor
    rcases hor with h0 | h0
    · exact hne ((utf8Len_eq_zero_iff l).mp h0)
    · omega
  · rw [checkChars_none_iff]
    refine ⟨h1, by simpa using hcount, ?_⟩
    intro j a hj ha
    subst ha
    have hjl : j < l.length := get?_some_lt l j ':' hj
    have hj0 : j ≠ 0 := by
      intro h0
      subst h0
      rw [← head?_eq_get?_zero] at hj
      exact hhead hj
    have hjlast : j ≠ l.length - 1 := by
      intro hje
      subst hje
      rw [← getLast?_eq_get?] at hj
      exact hlast hj
    omega

/-- A successful `normalizeId` returns exactly the trimmed-and-lowercased
input, and that result is spec-valid. -/
theorem normalizeId_ok_inv {raw s : String} (h : normalizeId raw = .ok s) :
    s = String.mk (lowerTrim raw) ∧ specValid (lowerTrim raw) := by
  rw [normalizeId_eq] at h
  split at h
  · cases h
  · rename_i hbl
    split at h
    · cases h
    · rename_i hcc
      cases h
      exact ⟨rfl, specValid_of_loop hbl hcc⟩

/-- On spec-valid input `normalizeId` succeeds with the
trimmed-and-lowercased string. -/
theorem normalizeId_ok_of_specValid {raw : String} (h : specValid (lowerTrim raw)) :
    normalizeId raw = .ok (String.mk (lowerTrim raw)) := by
  obtain ⟨hbl, hcc⟩ := loop_of_specValid raw h
  rw [normalizeId_eq, if_neg hbl, hcc]

/-- On spec-invalid input `normalizeId` fails with an `InvalidId` error. -/
theorem normalizeId_error_of_not_specValid {raw : String}
    (h : ¬ specValid (lowerTrim raw)) :
    ∃ msg, normalizeId raw = .error (.InvalidId msg) := by
  rw [normalizeId_eq]
  split
  · exact ⟨_, rfl⟩
  · rename_i hbl
    rcases hcase : checkChars raw (utf8Len (lowerTrim raw)) (lowerTrim raw) 0 false with _ | e
    · exact absurd (specValid_of_loop hbl hcase) h
    · obtain ⟨msg, rfl⟩ :=
        checkChars_some_invalid raw (utf8Len (lowerTrim raw)) (lowerTrim raw) 0 false e hcase
      exact ⟨msg, rfl⟩

theorem dropWhile_all_false {p : Char → Bool} :
    ∀ {l : List Char}, (∀ c ∈ l, p c = false) → l.dropWhile p = l
  | [], _ => rfl
  | c :: l, h => by
    rw [List.dropWhile_cons, if_neg]
    simp [h c (List.mem_cons_self c l)]

theorem map_eq_self_of {f : Char → Char} :
    ∀ {l : List Char}, (∀ c ∈ l, f c = c) → l.map f = l
  | [], _ => rfl
  | c :: l, h => by
    rw [List.map_cons, h c (List.mem_cons_self c l),
      map_eq_self_of fun x hx => h x (List.mem_cons_of_mem c hx)]

/-- A list without whitespace characters is fixed by trimming. -/
theorem rustTrim_eq_self {l : List Char} (h : ∀ c ∈ l, isWs c = false) :
    rustTrim l = l := by
  unfold rustTrim
  rw [dropWhile_all_false h,
    dropWhile_all_false fun c hc => h c (List.mem_reverse.mp hc),
    List.reverse_reverse]

/-- A spec-valid list is already trimmed and lowercased, so `lowerTrim`
is the identity on the corresponding string. -/
theorem lowerTrim_fixed {l : List Char} (h : ∀ c ∈ l, allowedChar c = true ∨ c = ':') :
    lowerTrim (String.mk l) = l := by
  unfold lowerTrim
  have hdata : (String.mk l).data = l := rfl
  rw [hdata, rustTrim_eq_self fun c hc => (okChar_props (h c hc)).2.1,
    map_eq_self_of fun c hc => (okChar_props (h c hc)).1]

/-! ## Claim theorems for the normalizer -/

/-- C3: `normalize(raw)` succeeds exactly when, after trimming whitespace
and lowercasing, the string is non-empty, of length at most 200, and every
character is one of `[a-z0-9._-]` except at most one `:` that is neither
the first nor the last character; in every other case it fails with
`IdentifierInvalid` (`RegistryError.InvalidId`): the empty/whitespace-only
string, strings longer than 200 characters, characters outside the allowed
set, more than one `:`, and a `:` at position 0 or at the final position
are all rejected. -/
theorem c3_normalize_succeeds_iff_valid (raw : String) :
    (specValid (lowerTrim raw) → normalizeId raw = .ok (String.mk (lowerTrim raw))) ∧
    (¬ specValid (lowerTrim raw) → ∃ msg, normalizeId raw = .error (.InvalidId msg)) :=
  ⟨normalizeId_ok_of_specValid, normalizeId_error_of_not_specValid⟩

theorem c3_normalize_succeeds_iff_valid_witness :
    (specValid (lowerTrim " Hello.World ") ∧
      normalizeId " Hello.World " = .ok (String.mk (lowerTrim " Hello.World "))) ∧
    (¬ specValid (lowerTrim "a:b:c") ∧
      ∃ msg, normalizeId "a:b:c" = .error (.InvalidId msg)) :=
  ⟨⟨by decide, (c3_normalize_succeeds_iff_valid " Hello.World ").1 (by decide)⟩,
   ⟨by decide, (c3_normalize_succeeds_iff_valid "a:b:c").2 (by decide)⟩⟩

/-- C9: on every raw string on which `normalizeId` succeeds, normalizing
the result again succeeds and returns the same string, and the result
contains no uppercase ASCII letters and no leading or trailing
whitespace. -/
theorem c9_normalize_idempotent {raw s : String} (h : normalizeId raw = .ok s) :
    normalizeId s = .ok s ∧
    (∀ c ∈ s.data, ¬(65 ≤ c.toNat ∧ c.toNat ≤ 90)) ∧
    (∀ c, s.data.head? = some c → isWs c = false) ∧
    (∀ c, s.data.getLast? = some c → isWs c = false) := by
  obtain ⟨rfl, hv⟩ := normalizeId_ok_inv h
  have hall := hv.2.2.1
  have hdata : (String.mk (lowerTrim raw)).data = lowerTrim raw := rfl
  have hfix := lowerTrim_fixed hall
  refine ⟨?_, ?_, ?_, ?_⟩
  · have h2 := @normalizeId_ok_of_specValid (String.mk (lowerTrim raw))
      (by rw [hfix]; exact hv)
    rwa [hfix] at h2
  · intro c hc
    exact (okChar_props (hall c (by rwa [hdata] at hc))).2.2.2
  · intro c hc
    rw [hdata, head?_eq_get?_zero] at hc
    exact (okChar_props (hall c (List.get?_mem hc))).2.1
  · intro c hc
    rw [hdata, getLast?_eq_get?] at hc
    exact (okChar_props (hall c (List.get?_mem hc))).2.1

theorem c9_normalize_idempotent_witness :
    normalizeId " Foo " = .ok "foo" ∧ normalizeId "foo" = .ok "foo" :=
  ⟨by decide, (c9_normalize_idempotent (by decide : normalizeId " Foo " = .ok "foo")).1⟩

/-! ## Lemmas about the registry builder -/

theorem mapContains_insert_self {α : Type} (m : Map α) (k : String) (v : α) :
    mapContains (mapInsert m k v) k = true := by
  simp [mapContains, mapInsert]

theorem mapContains_insert_mono {α : Type} {m : Map α} {k : String} (k' : String) (v : α)
    (h : mapContains m k = true) : mapContains (mapInsert m k' v) k = true := by
  simp only [mapContains, mapInsert, List.any_cons, Bool.or_eq_true]
  exact Or.inr (by simpa [mapContains] using h)

/-- Whatever builder a successful `register_mod_provider` call returns:
the normalized id was inserted into the provider map and the game map was
left alone. -/
theorem registerModProvider_ok_inv {b : ContextBuilder} {id : String}
    {p : ModProviderImpl} {src : ProviderSource} {b' : ContextBuilder}
    (h : registerModProvider b id p src = .ok b') :
    ∃ nid, normalizeId id = .ok nid ∧
      b' = { b with mod_providers := mapInsert b.mod_providers nid ⟨nid, src, p⟩ } := by
  rcases hn : normalizeId id with e | nid
  · simp [registerModProvider, hn] at h
  · refine ⟨nid, rfl, ?_⟩
    simp only [registerModProvider, hn] at h
    split at h
    · cases h
    · split at h
      · cases h
      · injection h with h2
        exact h2.symm

/-- Whatever builder a successful `register_game_provider` call returns:
a game entry recording the normalized dependency id was inserted and the
provider map was left alone. -/
theorem registerGameProvider_ok_inv {b : ContextBuilder} {g : GameProviderImpl}
    {src : ProviderSource} {b' : ContextBuilder}
    (h : registerGameProvider b g src = .ok b') :
    ∃ nid dep, normalizeId g.id = .ok nid ∧ normalizeId g.mod_provider_id = .ok dep ∧
      mapContains b.mod_providers dep = true ∧
      b' = { b with games := mapInsert b.games nid ⟨nid, src, g, dep⟩ } := by
  rcases hn : normalizeId g.id with e | nid
  · simp [registerGameProvider, hn] at h
  · simp only [registerGameProvider, hn] at h
    split at h
    · cases h
    · rcases hd : normalizeId g.mod_provider_id with e | dep
      · rw [hd] at h; cases h
      · rw [hd] at h
        simp only at h
        split at h
        · rename_i hdep
          injection h with h2
          exact ⟨nid, dep, rfl, rfl, hdep, h2.symm⟩
        · cases h

/-! ## Claim theorems for provider registration -/

/-- C1: `register_provider` first normalizes the raw id, propagating the
normalization error; fails with `ReservedCoreId` when the normalized id is
under `core:` and the origin is not `Core`, while the same id with origin
`Core` succeeds when fresh; fails with `ProviderAlreadyExists` when a
provider under the same normalized id is already registered — including
case variants, since both raw spellings normalize to the same id; and
otherwise inserts a `ProviderEntry` under the normalized id. -/
theorem c1_register_provider_spec (b : ContextBuilder) (raw : String)
    (p p2 : ModProviderImpl) (src src2 : ProviderSource) :
    (∀ e, normalizeId raw = .error e → registerModProvider b raw p src = .error e) ∧
    (∀ nid, normalizeId raw = .ok nid → isCoreId nid = true → src ≠ .Core →
      registerModProvider b raw p src = .error (.ReservedCoreId nid)) ∧
    (∀ nid, normalizeId raw = .ok nid → mapContains b.mod_providers nid = false →
      registerModProvider b raw p .Core
        = .ok { b with mod_providers := mapInsert b.mod_providers nid ⟨nid, .Core, p⟩ }) ∧
    (∀ nid, normalizeId raw = .ok nid → (isCoreId nid = false ∨ src = .Core) →
      mapContains b.mod_providers nid = true →
      registerModProvider b raw p src = .error (.ProviderAlreadyExists nid)) ∧
    (∀ nid, normalizeId raw = .ok nid → (isCoreId nid = false ∨ src = .Core) →
      mapContains b.mod_providers nid = false →
      registerModProvider b raw p src
        = .ok { b with mod_providers := mapInsert b.mod_providers nid ⟨nid, src, p⟩ }) ∧
    (∀ raw2 nid b', normalizeId raw = .ok nid → normalizeId raw2 = .ok nid →
      registerModProvider b raw p src = .ok b' → (isCoreId nid = false ∨ src2 = .Core) →
      registerModProvider b' raw2 p2 src2 = .error (.ProviderAlreadyExists nid)) := by
  refine ⟨?_, ?_, ?_, ?_, ?_, ?_⟩
  · intro e he
    simp [registerModProvider, he]
  · intro nid hn hcore hsrc
    simp [registerModProvider, hn, hcore, hsrc]
  · intro nid hn hcon
    simp [registerModProvider, hn, hcon]
  · intro nid hn hside hcon
    rcases hside with h | h
    · simp [registerModProvider, hn, h, hcon]
    · subst h
      simp [registerModProvider, hn, hcon]
  · intro nid hn hside hcon
    rcases hside with h | h
    · simp [registerModProvider, hn, h, hcon]
    · subst h
      simp [registerModProvider, hn, hcon]
  · intro raw2 nid b' hn1 hn2 hok hside
    obtain ⟨nid', hn', hb'⟩ := registerModProvider_ok_inv hok
    rw [hn1] at hn'
    cases hn'
    have hcon : mapContains b'.mod_providers nid = true := by
      rw [hb']
      exact mapContains_insert_self _ _ _
    rcases hside with h | h
    · simp [registerModProvider, hn2, h, hcon]
    · subst h
      simp [registerModProvider, hn2, hcon]

/-- The builder produced by registering `foo` as a plugin provider on a
fresh builder. -/
def demoB1 : ContextBuilder :=
  ⟨[("foo", ⟨"foo", .Plugin "p", demoProvider⟩)], []⟩

theorem c1_register_provider_spec_witness :
    (registerModProvider ContextBuilder.new "core:x" demoProvider (.Plugin "p")
      = .error (.ReservedCoreId "core:x")) ∧
    (registerModProvider ContextBuilder.new "core:x" demoProvider .Core
      = .ok { ContextBuilder.new with
          mod_providers := mapInsert ContextBuilder.new.mod_providers "core:x"
            ⟨"core:x", .Core, demoProvider⟩ }) ∧
    (registerModProvider demoB1 "Foo" demoProvider (.Plugin "q")
      = .error (.ProviderAlreadyExists "foo")) :=
  ⟨(c1_register_provider_spec ContextBuilder.new "core:x" demoProvider demoProvider
      (.Plugin "p") (.Plugin "p")).2.1 "core:x" (by decide) (by decide) (by decide),
   (c1_register_provider_spec ContextBuilder.new "core:x" demoProvider demoProvider
      (.Plugin "p") (.Plugin "p")).2.2.1 "core:x" (by decide) (by decide),
   (c1_register_provider_spec ContextBuilder.new "foo" demoProvider demoProvider
      (.Plugin "p") (.Plugin "q")).2.2.2.2.2 "Foo" "foo" demoB1 (by decide) (by decide)
      rfl (Or.inl (by decide))⟩

/-! ## Claim theorems for game registration -/

/-- C2 (amended): when the game's dependency id normalizes to an id that is
not a registered mod provider, `register_game` fails with
`RegistryError.NotFound` — the same variant the frozen context uses for
lookup misses; the code has no separate `DependencyNotFound` variant — and
no `GameEntry` is inserted; when the dependency is registered and the game
id is fresh, a `GameEntry` recording the normalized dependency id is
inserted. -/
theorem c2_register_game_dependency (b : ContextBuilder) (g : GameProviderImpl)
    (src : ProviderSource) :
    (∀ nid dep, normalizeId g.id = .ok nid → mapContains b.games nid = false →
      normalizeId g.mod_provider_id = .ok dep → mapContains b.mod_providers dep = false →
      registerGameProvider b g src = .error (.NotFound dep) ∧
        applyBuilderOp b (.registerGame g src) = b) ∧
    (∀ nid dep, normalizeId g.id = .ok nid → mapContains b.games nid = false →
      normalizeId g.mod_provider_id = .ok dep → mapContains b.mod_providers dep = true →
      registerGameProvider b g src
        = .ok { b with games := mapInsert b.games nid ⟨nid, src, g, dep⟩ }) := by
  constructor
  · intro nid dep hn hfresh hd hdep
    have hreg : registerGameProvider b g src = .error (.NotFound dep) := by
      simp [registerGameProvider, hn, hfresh, hd, hdep]
    refine ⟨hreg, ?_⟩
    simp [applyBuilderOp, hreg]
  · intro nid dep hn hfresh hd hdep
    simp [registerGameProvider, hn, hfresh, hd, hdep]

theorem c2_register_game_dependency_counterexample :
    errOf (registerGameProvider ContextBuilder.new ⟨"game-y", "mod:missing"⟩ (.Plugin "plug"))
      = some (.NotFound "mod:missing") ∧
    errOf (getModProvider ContextBuilder.new.freeze "mod:missing")
      = some (.NotFound "mod:missing") := by decide

theorem c2_register_game_dependency_witness :
    (registerGameProvider ContextBuilder.new ⟨"game-y", "mod:missing"⟩ (.Plugin "plug")
      = .error (.NotFound "mod:missing") ∧
      applyBuilderOp ContextBuilder.new (.registerGame ⟨"game-y", "mod:missing"⟩ (.Plugin "plug"))
        = ContextBuilder.new) ∧
    registerGameProvider demoB1 ⟨"game-y", "foo"⟩ (.Plugin "plug")
      = .ok { demoB1 with games := mapInsert demoB1.games "game-y" ⟨"game-y", .Plugin "plug", ⟨"game-y", "foo"⟩, "foo"⟩ } :=
  ⟨(c2_register_game_dependency ContextBuilder.new ⟨"game-y", "mod:missing"⟩
      (.Plugin "plug")).1 "game-y" "mod:missing" (by decide) (by decide) (by decide) (by decide),
   (c2_register_game_dependency demoB1 ⟨"game-y", "foo"⟩ (.Plugin "plug")).2
      "game-y" "foo" (by decide) (by decide) (by decide) (by decide)⟩

/-- C6 (amended): `register_game` normalizes the game's self-reported id
first, then performs the duplicate-game check, and only afterwards
normalizes the declared dependency id; so for a provider whose game id is
already registered, the call fails with `GameAlreadyExists` even when the
declared dependency id is malformed, and a malformed dependency id is only
reported (as `InvalidId`) when the game id is fresh. -/
theorem c6_duplicate_check_before_dependency (b : ContextBuilder) (g : GameProviderImpl)
    (src : ProviderSource) :
    (∀ e, normalizeId g.id = .error e → registerGameProvider b g src = .error e) ∧
    (∀ nid, normalizeId g.id = .ok nid → mapContains b.games nid = true →
      registerGameProvider b g src = .error (.GameAlreadyExists nid)) ∧
    (∀ nid e, normalizeId g.id = .ok nid → mapContains b.games nid = false →
      normalizeId g.mod_provider_id = .error e →
      registerGameProvider b g src = .error e) := by
  refine ⟨?_, ?_, ?_⟩
  · intro e he
    simp [registerGameProvider, he]
  · intro nid hn hdup
    simp [registerGameProvider, hn, hdup]
  · intro nid e hn hfresh hb
    simp [registerGameProvider, hn, hfresh, hb]

/-- A builder holding the provider `mod:p` and the game `g` depending
on it. -/
def demoB2 : ContextBuilder :=
  runBuilder [
    .registerProvider "mod:p" demoProvider (.Plugin "plug"),
    .registerGame ⟨"g", "mod:p"⟩ (.Plugin "plug")]

theorem c6_duplicate_check_before_dependency_counterexample :
    errOf (registerGameProvider demoB2 ⟨"g", "bad id$"⟩ (.Plugin "plug"))
      = some (.GameAlreadyExists "g") ∧
    (normalizeId "bad id$").isOk = false := by decide

theorem c6_duplicate_check_before_dependency_witness :
    registerGameProvider demoB2 ⟨"g", "bad id$"⟩ (.Plugin "plug")
      = .error (.GameAlreadyExists "g") ∧
    registerGameProvider demoB2 ⟨"h", "bad id$"⟩ (.Plugin "plug")
      = .error (.InvalidId "ID: 'bad id$' contains invalid character ' ' at position 3") :=
  ⟨(c6_duplicate_check_before_dependency demoB2 ⟨"g", "bad id$"⟩ (.Plugin "plug")).2.1
      "g" (by decide) (by decide),
   (c6_duplicate_check_before_dependency demoB2 ⟨"h", "bad id$"⟩ (.Plugin "plug")).2.2
      "h" (.InvalidId "ID: 'bad id$' contains invalid character ' ' at position 3")
      (by decide) (by decide) (by decide)⟩

/-! ## Claim theorems for the frozen context -/

/-- C7: when `activate_game(id)` fails — the id is malformed, or it
normalizes to an id absent from the games map, giving `NotFound` — the
active-game slot (indeed, the whole context) holds the same value after
the call as before; when it succeeds, the slot is overwritten with the
normalized id. -/
theorem c7_activate_game_slot (ctx : Context) (id : String) :
    (∀ e, (activateGame ctx id).1 = .error e → (activateGame ctx id).2 = ctx) ∧
    (∀ e, normalizeId id = .error e → (activateGame ctx id).1 = .error e) ∧
    (∀ nid, normalizeId id = .ok nid → mapContains ctx.game_providers nid = false →
      (activateGame ctx id).1 = .error (.NotFound nid)) ∧
    (∀ nid, normalizeId id = .ok nid → mapContains ctx.game_providers nid = true →
      activateGame ctx id = (.ok (), { ctx with active_game := some nid })) := by
  refine ⟨?_, ?_, ?_, ?_⟩
  · intro e he
    rcases hn : normalizeId id with e' | nid
    · simp [activateGame, hn]
    · by_cases hc : mapContains ctx.game_providers nid = true
      · simp [activateGame, hn, hc] at he
      · simp [activateGame, hn, hc]
  · intro e he
    simp [activateGame, he]
  · intro nid hn hc
    simp [activateGame, hn, hc]
  · intro nid hn hc
    simp [activateGame, hn, hc]

theorem c7_activate_game_slot_witness :
    (activateGame demoCtx "unknown").1 = .error (.NotFound "unknown") ∧
    (activateGame demoCtx "unknown").2 = demoCtx ∧
    activateGame demoCtx "game-a" = (.ok (), { demoCtx with active_game := some "game-a" }) := by
  have h1 := (c7_activate_game_slot demoCtx "unknown").2.2.1 "unknown" (by decide) (by decide)
  exact ⟨h1, (c7_activate_game_slot demoCtx "unknown").1 _ h1,
    (c7_activate_game_slot demoCtx "game-a").2.2.2 "game-a" (by decide) (by decide)⟩

/-- C4 (amended): on a frozen context whose active-game slot is empty,
`get_extended_info` first normalizes its mod-id argument, propagating
`InvalidId` for a malformed id; for every id that normalizes successfully
it fails with `NotFound("No active game")` (capital `N`), however many
providers and games the context holds. -/
theorem c4_no_active_game (ctx : Context) (id : String) (h : ctx.active_game = none) :
    (∀ nid, normalizeId id = .ok nid →
      getExtendedInfo ctx id = .error (.NotFound "No active game")) ∧
    (∀ e, normalizeId id = .error e → getExtendedInfo ctx id = .error e) := by
  have hag : activeGameRequiredProvider ctx = none := by
    simp [activeGameRequiredProvider, activeGame, h]
  constructor
  · intro nid hn
    simp [getExtendedInfo, hn, hag]
  · intro e he
    simp [getExtendedInfo, he]

theorem c4_no_active_game_counterexample :
    demoCtx.active_game = none ∧
    (listModProviders demoCtx).length = 1 ∧
    (listGames demoCtx).length = 1 ∧
    errOf (getExtendedInfo demoCtx " ") = some (.InvalidId "ID ' ' is invalid.") ∧
    errOf (getExtendedInfo demoCtx "mod-xyz") = some (.NotFound "No active game") ∧
    "No active game" ≠ "no active game" := by decide

theorem c4_no_active_game_witness :
    getExtendedInfo demoCtx "mod-xyz" = .error (.NotFound "No active game") :=
  (c4_no_active_game demoCtx "mod-xyz" (by decide)).1 "mod-xyz" (by decide)

/-! ## Claim theorem for the api-key capability delegate -/

/-- C5: an api-key capability delegate whose owning provider has been
destroyed (the weak reference no longer upgrades) answers `needs_prompt`
with `false` for every argument, `on_provided` with the
`ProviderError` validation failure for every submission list, `render`
with the provider-unavailable error, and `on_rejected` does nothing; all
four delegate methods are total functions, so none of these calls can
panic. -/
theorem c5_dropped_delegate {T : Type} (impl : RequiresApiKeyImpl T)
    (values : List ApiSubmitResponse) (existing_key : Option String) :
    capNeedsPrompt impl (none : ApiKeyCapability T) existing_key = false ∧
    capOnProvided impl (none : ApiKeyCapability T) values = .error .ProviderError ∧
    capRender impl (none : ApiKeyCapability T) = .error .ProviderDropped ∧
    capOnRejected impl (none : ApiKeyCapability T) = () :=
  ⟨rfl, rfl, rfl, rfl⟩

/-! ## Counting successful registrations (for freeze) -/

theorem foldl_mod_providers_length : ∀ (ops : List BuilderOp) (b : ContextBuilder),
    (ops.foldl applyBuilderOp b).mod_providers.length
      = b.mod_providers.length + providerSuccessCount b ops
  | [], b => by simp [providerSuccessCount]
  | op :: rest, b => by
    rw [List.foldl_cons, foldl_mod_providers_length rest (applyBuilderOp b op)]
    cases op with
    | registerProvider id p src =>
      rcases hreg : registerModProvider b id p src with e | b'
      · simp [providerSuccessCount, applyBuilderOp, hreg]
      · obtain ⟨nid, hn, hb'⟩ := registerModProvider_ok_inv hreg
        have hlen : b'.mod_providers.length = b.mod_providers.length + 1 := by
          rw [hb']; simp [mapInsert]
        simp only [providerSuccessCount, applyBuilderOp, hreg, hlen]
        omega
    | registerGame g src =>
      rcases hreg : registerGameProvider b g src with e | b'
      · simp [providerSuccessCount, applyBuilderOp, hreg]
      · obtain ⟨nid, dep, hn, hd, hdep, hb'⟩ := registerGameProvider_ok_inv hreg
        have hmods : b'.mod_providers = b.mod_providers := by rw [hb']
        simp [providerSuccessCount, applyBuilderOp, hreg, hmods]

/-- C8: for every sequence of registration calls on a fresh builder
followed by `freeze`, the resulting context's active-game slot starts
empty, and `list_mod_providers` has exactly one entry per stored provider,
so its length equals the number of `register_mod_provider` calls that
returned success. -/
theorem c8_freeze_provider_count (ops : List BuilderOp) :
    ((runBuilder ops).freeze).active_game = none ∧
    (listModProviders ((runBuilder ops).freeze)).length
      = providerSuccessCount ContextBuilder.new ops := by
  refine ⟨rfl, ?_⟩
  have h := foldl_mod_providers_length ops ContextBuilder.new
  simpa [listModProviders, ContextBuilder.freeze, runBuilder, ContextBuilder.new] using h

/-! ## Reachable-state invariant -/

/-- Builder invariant: every stored game entry's recorded dependency id is
a key of the provider map. -/
def BuilderInv (b : ContextBuilder) : Prop :=
  ∀ p ∈ b.games, mapContains b.mod_providers p.2.required_provider_id = true

/-- Context invariant: every stored game entry's recorded dependency id is
a key of the provider map, and the active-game slot, when set, holds a key
of the games map. -/
def CtxInv (ctx : Context) : Prop :=
  (∀ p ∈ ctx.game_providers, mapContains ctx.mod_providers p.2.required_provider_id = true) ∧
  (∀ g, ctx.active_game = some g → mapContains ctx.game_providers g = true)

theorem applyBuilderOp_inv {b : ContextBuilder} (h : BuilderInv b) (op : BuilderOp) :
    BuilderInv (applyBuilderOp b op) := by
  cases op with
  | registerProvider id p src =>
    rcases hreg : registerModProvider b id p src with e | b'
    · simpa [applyBuilderOp, hreg] using h
    · obtain ⟨nid, hn, hb'⟩ := registerModProvider_ok_inv hreg
      simp only [applyBuilderOp, hreg]
      intro q hq
      rw [hb'] at hq ⊢
      exact mapContains_insert_mono _ _ (h q hq)
  | registerGame g src =>
    rcases hreg : registerGameProvider b g src with e | b'
    · simpa [applyBuilderOp, hreg] using h
    · obtain ⟨nid, dep, hn, hd, hdep, hb'⟩ := registerGameProvider_ok_inv hreg
      simp only [applyBuilderOp, hreg]
      intro q hq
      rw [hb'] at hq ⊢
      rcases List.mem_cons.mp hq with hql | hq
      · subst hql
        simpa using hdep
      · exact h q hq

theorem foldl_builder_inv : ∀ (ops : List BuilderOp) (b : ContextBuilder),
    BuilderInv b → BuilderInv (ops.foldl applyBuilderOp b)
  | [], _, h => h
  | op :: rest, b, h =>
    foldl_builder_inv rest (applyBuilderOp b op) (applyBuilderOp_inv h op)

theorem runBuilder_inv (ops : List BuilderOp) : BuilderInv (runBuilder ops) :=
  foldl_builder_inv ops ContextBuilder.new fun p hp => absurd hp (List.not_mem_nil p)

theorem freeze_inv {b : ContextBuilder} (h : BuilderInv b) : CtxInv b.freeze :=
  ⟨h, fun g hg => by cases hg⟩

theorem applyCtxOp_inv {ctx : Context} (h : CtxInv ctx) (op : CtxOp) :
    CtxInv (applyCtxOp ctx op) := by
  cases op with
  | activate id =>
    rcases hn : normalizeId id with e | nid
    · simpa [applyCtxOp, activateGame, hn] using h
    · by_cases hc : mapContains ctx.game_providers nid = true
      · refine ⟨?_, ?_⟩
        · simpa [applyCtxOp, activateGame, hn, hc] using h.1
        · intro g hg
          simp only [applyCtxOp, activateGame, hn, hc, if_pos] at hg ⊢
          simp at hg
          subst hg
          simpa using hc
      · simpa [applyCtxOp, activateGame, hn, hc] using h

theorem foldl_ctx_inv : ∀ (cops : List CtxOp) (ctx : Context),
    CtxInv ctx → CtxInv (cops.foldl applyCtxOp ctx)
  | [], _, h => h
  | op :: rest, ctx, h =>
    foldl_ctx_inv rest (applyCtxOp ctx op) (applyCtxOp_inv h op)

theorem mapContains_eq_isSome {α : Type} (m : Map α) (k : String) :
    mapContains m k = (mapFind m k).isSome := by
  induction m with
  | nil => rfl
  | cons q m ih =>
    simp only [mapContains, List.any_cons, mapFind, List.find?_cons]
    cases hq : q.1 == k
    · simpa [hq, mapContains, mapFind] using ih
    · simp [hq]

/-- Consequences of the context invariant: an active game always resolves
to a recorded dependency provider id, and that id always resolves in the
provider map, so the defensive `NotFound(provider)` branch of
`get_extended_info` can never be taken. -/
theorem ctxInv_consequences {ctx : Context} (hinv : CtxInv ctx) :
    (∀ g, ctx.active_game = some g →
      (activeGameRequiredProvider ctx).isSome = true) ∧
    (∀ p, activeGameRequiredProvider ctx = some p →
      (mapFind ctx.mod_providers p).isSome = true) := by
  constructor
  · intro g hg
    have hc := hinv.2 g hg
    rw [mapContains_eq_isSome] at hc
    obtain ⟨e, he⟩ := Option.isSome_iff_exists.mp hc
    simp [activeGameRequiredProvider, activeGame, hg, he]
  · intro p hp
    unfold activeGameRequiredProvider activeGame at hp
    rcases hag : ctx.active_game with _ | g
    · rw [hag] at hp; cases hp
    · rw [hag] at hp
      simp only [Option.some_bind] at hp
      rw [Option.map_eq_some'] at hp
      obtain ⟨e, he, hep⟩ := hp
      unfold mapFind at he
      rw [Option.map_eq_some'] at he
      obtain ⟨q, hq, hq2⟩ := he
      have hmem := List.mem_of_find?_eq_some hq
      have hcont := hinv.1 q hmem
      rw [hq2, hep] at hcont
      rw [← mapContains_eq_isSome]
      exact hcont

/-- C10: in every context reachable by freezing a builder built by any
sequence of registrations and then applying any sequence of context
operations, every stored `GameEntry.required_provider_id` is a key of the
provider map and an active-game id is always a key of the games map
(`CtxInv`); consequently `active_game_required_provider` answers whenever
a game is active, and the answered provider id always resolves, making the
defensive `NotFound(provider id)` branch of `get_extended_info`
unreachable. -/
theorem c10_reachable_context_invariant (ops : List BuilderOp) (cops : List CtxOp) :
    CtxInv (runCtx ((runBuilder ops).freeze) cops) ∧
    (∀ g, (runCtx ((runBuilder ops).freeze) cops).active_game = some g →
      (activeGameRequiredProvider (runCtx ((runBuilder ops).freeze) cops)).isSome = true) ∧
    (∀ p, activeGameRequiredProvider (runCtx ((runBuilder ops).freeze) cops) = some p →
      (mapFind (runCtx ((runBuilder ops).freeze) cops).mod_providers p).isSome = true) := by
  have hinv : CtxInv (runCtx ((runBuilder ops).freeze) cops) :=
    foldl_ctx_inv cops ((runBuilder ops).freeze) (freeze_inv (runBuilder_inv ops))
  exact ⟨hinv, (ctxInv_consequences hinv).1, (ctxInv_consequences hinv).2⟩

/-- The registration sequence behind `demoBuilder`. -/
def demoOps : List BuilderOp :=
  [.registerProvider "mod:p" demoProvider (.Plugin "plug"),
   .registerGame ⟨"game-a", "mod:p"⟩ (.Plugin "plug")]

/-- Activation of `game-a` against the demo context. -/
def demoCops : List CtxOp := [.activate "game-a"]

theorem c10_reachable_context_invariant_witness :
    (activeGameRequiredProvider (runCtx ((runBuilder demoOps).freeze) demoCops)).isSome = true ∧
    (mapFind (runCtx ((runBuilder demoOps).freeze) demoCops).mod_providers "mod:p").isSome
      = true :=
  ⟨(c10_reachable_context_invariant demoOps demoCops).2.1 "game-a" (by decide),
   (c10_reachable_context_invariant demoOps demoCops).2.2 "mod:p" (by decide)⟩

end LibVmm

namespace LibVmm

/-! ## Sanity checks mirroring the repository's unit tests
(`src/tests/registry.rs`, `src/tests/context.rs`), validating the
embedding against the observable behavior the tests pin down. -/

example : normalizeId "Hello.World" = .ok "hello.world" := by decide
example : (normalizeId "     ").isOk = false := by decide
example : (normalizeId "abc$def").isOk = false := by decide
example : normalizeId "ns:thing" = .ok "ns:thing" := by decide
example : (normalizeId ":abc").isOk = false := by decide
example : (normalizeId "abc:").isOk = false := by decide
example : (normalizeId "a:b:c").isOk = false := by decide
example : isCoreId "core:foo" = true := by decide
example : isCoreId "corex:foo" = false := by decide
example : (normalizeId "a").isOk = true := by decide
example : normalizeId " abc" = .ok "abc" := by decide
example : normalizeId "K" = .ok "k" := by decide
example : normalizeId "   ab　\u0085" = .ok "ab" := by decide
example : (normalizeId "İ").isOk = false := by decide
example : (normalizeId "Öl").isOk = false := by decide
set_option maxRecDepth 10000 in
example : (normalizeId (String.mk (List.replicate 200 'a'))).isOk = true := by decide
set_option maxRecDepth 10000 in
example : (normalizeId (String.mk (List.replicate 201 'a'))).isOk = false := by decide

example : demoCtx.active_game = none := by decide
example : getExtendedInfo demoCtx "mod-xyz" = .error (.NotFound "No active game") := by decide
example : (getExtendedInfo demoCtx " ").isOk = false := by decide
example : (activateGame demoCtx "game-a").1 = .ok () := by decide
example : (activateGame demoCtx "unknown").1 = .error (.NotFound "unknown") := by decide
example : activeGameRequiredProvider (applyCtxOp demoCtx (.activate "game-a")) = some "mod:p" := by decide
example : (listModProviders demoCtx).length = 1 := by decide
example : errOf (registerGameProvider ContextBuilder.new ⟨"game-y", "mod:missing"⟩ (.Plugin "plug"))
    = some (.NotFound "mod:missing") := by decide

end LibVmm
